import Mathlib

/-
Verification of the optimization-and-mesh-deformation core of cashocs.

The development shallowly embeds the relevant parts of the sources:

* `cashocs/geometry/deformation_handler.py` (`DeformationHandler`):
  mesh coordinates, snapshot/rollback, the a priori determinant check,
  the a posteriori collision check, `move_mesh`, `revert_transformation`,
  and the vertex <-> dof conversion maps.
* `cashocs/geometry/mesh_handler.py` (`_MeshHandler.__test_a_priori`):
  the ratio-bounded determinant variant of the a priori check.
* `cashocs/_optimization/optimization_algorithms/optimization_algorithm.py`
  (`OptimizationAlgorithm.convergence_test`, `nonconvergence`,
  `post_processing`).
* `cashocs/_optimization/optimization_algorithms/l_bfgs.py`
  (`LBFGSMethod.update_hessian_approximation`).
* `cashocs/_optimization/shape_optimization/shape_variable_abstractions.py`
  (`ShapeVariableAbstractions.project_to_working_set`, `compute_step`).

Numeric values are modelled by rationals; the external collaborators
(PETSc assembly/solves producing the projected determinant values, the
compiled collision counter, the form handler's scalar product, and the
working-set correction solve) are abstracted as function parameters, in
line with the "solve system, return solution vector" contract of the spec.
-/

namespace Cashocs

/-- Exceptions raised by the embedded code paths: `CashocsException` for an
invalid transformation shape in `move_mesh`, `InputError` for invalid
arguments of the conversion routines, and the `AttributeError` that a second
`revert_transformation` triggers after `del self.old_coordinates`. -/
inductive PyError where
  | cashocsException : PyError
  | inputError : PyError
  | attributeError : PyError
  deriving DecidableEq, Repr

/-- `np.min` over a nonempty list of rationals (0 on the empty list, on which
`np.min` would raise). -/
def npMin : List ℚ → ℚ
  | [] => 0
  | x :: xs => xs.foldl min x

/-- `np.max` over a nonempty list of rationals (0 on the empty list, on which
`np.max` would raise). -/
def npMax : List ℚ → ℚ
  | [] => 0
  | x :: xs => xs.foldl max x

/-- Reindexing of a flat array by an index map: `v[p]` in numpy.
Used for the `d2v`/`v2d` vertex <-> dof permutations. -/
def reindex (p : List ℕ) (v : List ℚ) : List ℚ :=
  p.map (fun k => v.getD k 0)

/-- State owned by `DeformationHandler`: the live coordinate array
(`self.mesh.coordinates()`, an `N x d` array modelled as a list of rows), the
rollback snapshot `self.old_coordinates` (`none` once deleted), the per-vertex
cell-incidence counts `self.occurrences` of the undeformed reference topology,
and the vertex <-> dof maps `d2v`/`v2d` computed once per mesh. -/
structure DHState where
  coordinates : List (List ℚ)
  old_coordinates : Option (List (List ℚ))
  occurrences : List ℕ
  d2v : List ℕ
  v2d : List ℕ
  deriving DecidableEq, Repr

/-- numpy shape equality of two `N x d` arrays modelled as lists of rows. -/
def sameShape (a b : List (List ℚ)) : Bool :=
  a.map List.length == b.map List.length

/-- `self.coordinates += coordinate_transformation`: elementwise addition. -/
def addCoords (a b : List (List ℚ)) : List (List ℚ) :=
  a.zipWith (fun r s => r.zipWith (· + ·) s) b

/-- `DeformationHandler.coordinate_to_dof` restricted to its flat-vector core:
`dof_vector = coordinate_deformation.reshape(-1)[self.d2v]`. -/
def coordinate_to_dof (d2v : List ℕ) (flat : List ℚ) : List ℚ :=
  reindex d2v flat

/-- `DeformationHandler.dof_to_coordinate` restricted to its flat-vector core:
`coordinate_deformation = dof_deformation.vector().vec()[self.v2d]`. -/
def dof_to_coordinate (v2d : List ℕ) (vec : List ℚ) : List ℚ :=
  reindex v2d vec

/-- `DeformationHandler.__test_a_priori`: the external assembly + solve
produces the piecewise-constant projection of `det(I + grad(transformation))`
(abstracted as `dets`); the test is `min_det > 0`. -/
def dh_test_a_priori (dets : List ℚ → List ℚ) (dof_transformation : List ℚ) :
    Bool :=
  decide (0 < npMin (dets dof_transformation))

/-- `_MeshHandler.__test_a_priori`: same projected determinant values, but the
ratio-bounded acceptance `min_det >= 1/volume_change and
max_det <= volume_change`. -/
def mh_test_a_priori (volume_change : ℚ) (dets : List ℚ) : Bool :=
  decide (1 / volume_change ≤ npMin dets) && decide (npMax dets ≤ volume_change)

/-- `DeformationHandler.revert_transformation`: restore the snapshot into the
live coordinates, delete the snapshot (`del self.old_coordinates`), rebuild the
bounding-box tree (no observable state here). With no snapshot present the
attribute access raises. -/
def revert_transformation (st : DHState) : Except PyError DHState :=
  match st.old_coordinates with
  | none => .error .attributeError
  | some old => .ok { st with coordinates := old, old_coordinates := none }

/-- `DeformationHandler.__test_a_posteriori`: compare the per-vertex
colliding-cell counts of the moved mesh (external compiled collision counter,
abstracted as `collisions`) against `self.occurrences`; on mismatch call
`revert_transformation` and report `False`. -/
def dh_test_a_posteriori (collisions : List (List ℚ) → List ℕ)
    (st : DHState) : Except PyError (Bool × DHState) :=
  if collisions st.coordinates = st.occurrences then
    .ok (true, st)
  else do
    let st' ← revert_transformation st
    .ok (false, st')

/-- `DeformationHandler.move_mesh` on the numpy-array branch: the shape guard
raising `CashocsException`, the optional a priori check (converting the
coordinate transformation to dof form first), then snapshot, in-place addition
and the a posteriori check. -/
def move_mesh (dets : List ℚ → List ℚ) (collisions : List (List ℚ) → List ℕ)
    (st : DHState) (transformation : List (List ℚ))
    (validated_a_priori : Bool) : Except PyError (Bool × DHState) :=
  if ¬ sameShape transformation st.coordinates then
    .error .cashocsException
  else
    let coordinate_transformation := transformation
    if ¬ validated_a_priori then
      let dof_transformation := coordinate_to_dof st.d2v transformation.flatten
      if ¬ dh_test_a_priori dets dof_transformation then
        .ok (false, st)
      else
        let st' : DHState :=
          { st with
            old_coordinates := some st.coordinates
            coordinates := addCoords st.coordinates coordinate_transformation }
        dh_test_a_posteriori collisions st'
    else
      let st' : DHState :=
        { st with
          old_coordinates := some st.coordinates
          coordinates := addCoords st.coordinates coordinate_transformation }
      dh_test_a_posteriori collisions st'

/-- State touched by `OptimizationAlgorithm.convergence_test`. -/
structure ConvState where
  iteration : ℕ
  gradient_norm_initial : ℚ
  relative_norm : ℚ
  converged : Bool
  deriving DecidableEq, Repr

/-- `OptimizationAlgorithm.convergence_test`: capture the initial gradient norm
at iteration 0, compute the relative norm (the `ZeroDivisionError` handler sets
it to 0, which coincides with rational division by zero), and report
convergence when `gradient_norm <= atol + rtol * gradient_norm_initial`,
setting the `converged` flag. -/
def convergence_test (rtol atol gradient_norm : ℚ) (st : ConvState) :
    Bool × ConvState :=
  let gni := if st.iteration = 0 then gradient_norm else st.gradient_norm_initial
  let st := { st with
    gradient_norm_initial := gni
    relative_norm := gradient_norm / gni }
  if gradient_norm ≤ atol + rtol * gni then
    (true, { st with converged := true })
  else
    (false, st)

/-- Runs `convergence_test` on a sequence of gradient norms, incrementing the
iteration counter between tests as the solver loops do, and records each test
result. -/
def convergence_run (rtol atol : ℚ) : List ℚ → ConvState → List Bool
  | [], _ => []
  | g :: gs, st =>
    let res := convergence_test rtol atol g st
    res.1 :: convergence_run rtol atol gs
      { res.2 with iteration := res.2.iteration + 1 }

/-- State read by `OptimizationAlgorithm.nonconvergence` and
`post_processing`. `iteration` is an integer because `post_processing`
decrements it. -/
structure AlgState where
  iteration : ℤ
  maximum_iterations : ℤ
  line_search_broken : Bool
  requires_remeshing : Bool
  remeshing_its : Bool
  converged : Bool
  converged_reason : ℤ
  soft_exit : Bool
  do_remesh : Bool
  deriving DecidableEq, Repr

/-- `OptimizationAlgorithm.nonconvergence`: the four reason checks run in
order (iteration budget, broken line search, remeshing required, remeshing
iteration budget), each overwriting `converged_reason`; the call reports
nonconvergence iff the final reason is negative. -/
def nonconvergence (st : AlgState) : Bool × AlgState :=
  let r0 := st.converged_reason
  let r1 := if st.maximum_iterations ≤ st.iteration then -1 else r0
  let r2 := if st.line_search_broken then -2 else r1
  let r3 := if st.requires_remeshing then -3 else r2
  let r4 := if st.remeshing_its then -4 else r3
  (decide (r4 < 0), { st with converged_reason := r4 })

/-- Observable actions of `OptimizationAlgorithm.post_processing`, in the
order they are executed. -/
inductive Event where
  | output : Event
  | outputSummary : Event
  | printMsg : Event
  | infoRemesh : Event
  | remeshCall : Event
  | errorMsg : Event
  deriving DecidableEq, Repr

/-- Whether `post_processing` returns normally or raises
`NotConvergedError`. -/
inductive Outcome where
  | normal : Outcome
  | raisedNotConverged : Outcome
  deriving DecidableEq, Repr

/-- `OptimizationAlgorithm.post_processing`: the trace of output/summary/print
actions executed before returning or raising, the final outcome, and the
resulting state (the `-2` and `-3` branches decrement the iteration
counter). -/
def post_processing (st : AlgState) : List Event × Outcome × AlgState :=
  if st.converged then
    ([.output, .outputSummary], .normal, st)
  else if st.converged_reason = -1 then
    if st.soft_exit then
      ([.output, .outputSummary, .printMsg], .normal, st)
    else
      ([.output, .outputSummary], .raisedNotConverged, st)
  else if st.converged_reason = -2 then
    let st := { st with iteration := st.iteration - 1 }
    if st.soft_exit then
      ([.outputSummary, .printMsg], .normal, st)
    else
      ([.outputSummary], .raisedNotConverged, st)
  else if st.converged_reason = -3 then
    let st := { st with iteration := st.iteration - 1 }
    if st.do_remesh then
      ([.infoRemesh, .remeshCall], .normal, st)
    else if st.soft_exit then
      ([.outputSummary, .errorMsg], .normal, st)
    else
      ([.outputSummary], .raisedNotConverged, st)
  else if st.converged_reason = -4 then
    if st.soft_exit then
      ([.outputSummary, .printMsg], .normal, st)
    else
      ([.outputSummary], .raisedNotConverged, st)
  else
    ([], .normal, st)

/-- The curvature histories of `LBFGSMethod` (`collections.deque`s:
`appendleft` conses at the head, `pop` removes the last element) together with
the `has_curvature_info` flag. `V` is the type of control vectors. -/
structure LBFGSState (V : Type) where
  history_s : List V
  history_y : List V
  history_rho : List ℚ
  has_curvature_info : Bool
  deriving DecidableEq, Repr

/-- Fresh histories as `_init_helpers` creates them. -/
def lbfgsInit (V : Type) : LBFGSState V :=
  { history_s := [], history_y := [], history_rho := [],
    has_curvature_info := false }

/-- The rejection test of `update_hessian_approximation`,
`cc / sqrt(ss * yy) <= 1e-14` with `cc = (y,s)`, `ss = (s,s)`, `yy = (y,y)`,
written square-root-free over the rationals: for `0 < ss * yy` this is
equivalent to the floating-point expression evaluated exactly
(see `curvature_small_iff_ratio`). -/
def curvature_small (cc ss yy : ℚ) : Bool :=
  decide (cc ≤ 0) || decide (cc ^ 2 * 10 ^ 28 ≤ ss * yy)

/-- `LBFGSMethod.update_hessian_approximation` for `bfgs_memory_size > 0`:
restrict `y_k` and `s_k` to the inactive set (`restrict`, the form handler's
in-place restriction), push both onto the histories, then either clear all
three histories and the curvature flag when the curvature-condition ratio is
at most `1e-14`, or push `rho = 1/(y,s)`; finally evict the oldest entries
when the capacity `bfgs_memory_size` is exceeded. `sp` is the form handler's
scalar product (externally assembled). -/
def update_hessian_approximation {V : Type} (sp : V → V → ℚ)
    (restrict : V → V) (bfgs_memory_size : ℕ) (y_in s_in : V)
    (st : LBFGSState V) : LBFGSState V :=
  if 0 < bfgs_memory_size then
    let y_k := restrict y_in
    let s_k := restrict s_in
    let st := { st with
      history_y := y_k :: st.history_y
      history_s := s_k :: st.history_s }
    let curvature_condition := sp y_k s_k
    let st :=
      if curvature_small curvature_condition (sp s_k s_k) (sp y_k y_k) then
        { history_s := [], history_y := [], history_rho := [],
          has_curvature_info := false }
      else
        { st with
          has_curvature_info := true
          history_rho := (1 / curvature_condition) :: st.history_rho }
    if bfgs_memory_size < st.history_s.length then
      { history_s := st.history_s.dropLast
        history_y := st.history_y.dropLast
        history_rho := st.history_rho.dropLast
        has_curvature_info := st.has_curvature_info }
    else
      st
  else
    st

/-- A sequence of `update_hessian_approximation` calls, fed with the
`(y_k, s_k)` pair of each iteration. -/
def lbfgs_run {V : Type} (sp : V → V → ℚ) (restrict : V → V)
    (bfgs_memory_size : ℕ) (inputs : List (V × V)) (st : LBFGSState V) :
    LBFGSState V :=
  inputs.foldl
    (fun st p => update_hessian_approximation sp restrict bfgs_memory_size
      p.1 p.2 st) st

/-- The trial point `y_j = coords_dof + stepsize * search_direction_dof`. -/
def stepCandidate (coords_dof search_direction_dof : List ℚ) (stepsize : ℚ) :
    List ℚ :=
  coords_dof.zipWith (fun c d => c + stepsize * d) search_direction_dof

/-- `np.all(mask[active_idx])` for a boolean mask `mask` indexed by the
boolean working-set mask `active_idx`. -/
def allOnActive (mask active_idx : List Bool) : Bool :=
  (mask.zip active_idx).all (fun p => !p.2 || p.1)

/-- Modelled from the spec: `ConstraintManager.compute_active_set`
(`mesh_constraints.py` is not among the sources; per the spec's active-set
scenario, a constraint is marked exactly when its value is within the
configured tolerance of binding). `evalc` is the constraint evaluation. -/
def compute_active_set (evalc : List ℚ → List ℚ) (tol : ℚ)
    (coords : List ℚ) : List Bool :=
  (evalc coords).map (fun c => decide (|c| ≤ tol))

/-- The feasibility check of one `project_to_working_set` iteration:
`np.all(compute_active_set(y_j[v2d])[active_idx])`. -/
def satisfies_working_set (evalc : List ℚ → List ℚ) (tol : ℚ) (v2d : List ℕ)
    (active_idx : List Bool) (y : List ℚ) : Bool :=
  allOnActive (compute_active_set evalc tol (reindex v2d y)) active_idx

/-- The `for i in range(10)` loop of `project_to_working_set`: check the
working set at the current trial point, return it when feasible, otherwise
apply the Lagrange-multiplier correction (`correct`, the external linear
solve) and continue; `none` once the fuel is spent. -/
def projectLoop (satisfies : List ℚ → Bool) (correct : List ℚ → List ℚ) :
    ℕ → List ℚ → Option (List ℚ)
  | 0, _ => none
  | n + 1, y => if satisfies y then some y else projectLoop satisfies correct n (correct y)

/-- `ShapeVariableAbstractions.project_to_working_set`: at most 10 correction
iterations starting from `coords_dof + stepsize * search_direction_dof`. -/
def project_to_working_set (evalc : List ℚ → List ℚ) (tol : ℚ) (v2d : List ℕ)
    (active_idx : List Bool) (correct : List ℚ → List ℚ)
    (coords_dof search_direction_dof : List ℚ) (stepsize : ℚ) :
    Option (List ℚ) :=
  projectLoop (satisfies_working_set evalc tol v2d active_idx) correct 10
    (stepCandidate coords_dof search_direction_dof stepsize)

/-- The leading `while True` loop of `ShapeVariableAbstractions.compute_step`:
project at the current stepsize; on failure halve the stepsize and retry
(fuel models the unbounded loop). -/
def compute_step_search (project : ℚ → Option (List ℚ)) :
    ℕ → ℚ → Option (List ℚ × ℚ)
  | 0, _ => none
  | n + 1, stepsize =>
    match project stepsize with
    | none => compute_step_search project n (stepsize / 2)
    | some trial_step => some (trial_step, stepsize)

/-! ## Theorems -/

/-- Helper: a successful `move_mesh` (result `True`) always leaves the handler
in the applied state, with the pre-move coordinates saved in the snapshot. -/
lemma move_mesh_ok_true_inv (dets : List ℚ → List ℚ)
    (collisions : List (List ℚ) → List ℕ) (st : DHState)
    (t : List (List ℚ)) (validated : Bool) (st' : DHState)
    (h : move_mesh dets collisions st t validated = .ok (true, st')) :
    st' = { st with old_coordinates := some st.coordinates,
                    coordinates := addCoords st.coordinates t } := by
  unfold move_mesh at h
  split at h
  · exact absurd h (by simp)
  · dsimp only at h
    split at h
    · split at h
      · exact absurd h (by simp)
      · unfold dh_test_a_posteriori at h
        dsimp only at h
        split at h
        · simp only [Except.ok.injEq, Prod.mk.injEq, true_and] at h
          exact h.symm
        · simp only [revert_transformation, bind, Except.bind] at h
          simp at h
    · unfold dh_test_a_posteriori at h
      dsimp only at h
      split at h
      · simp only [Except.ok.injEq, Prod.mk.injEq, true_and] at h
        exact h.symm
      · simp only [revert_transformation, bind, Except.bind] at h
        simp at h

/-- C1: with `validated_a_priori = false`, if the minimum of the
piecewise-constant projection of `det(I + grad(transformation))` is not
strictly positive, `move_mesh` returns `False` and the handler state — in
particular the coordinate array — is returned unchanged: no snapshot is taken
and no deformation is added. -/
theorem move_mesh_a_priori_reject (dets : List ℚ → List ℚ)
    (collisions : List (List ℚ) → List ℕ) (st : DHState)
    (t : List (List ℚ)) (hshape : sameShape t st.coordinates = true)
    (hfail : npMin (dets (coordinate_to_dof st.d2v t.flatten)) ≤ 0) :
    move_mesh dets collisions st t false = .ok (false, st) := by
  unfold move_mesh dh_test_a_priori
  simp [hshape, not_lt.mpr hfail]

/-- Witness for C1 at a concrete one-vertex state with projected determinant
`-1`. -/
theorem move_mesh_a_priori_reject_witness :
    move_mesh (fun _ => [-1]) (fun _ => [1]) ⟨[[0]], none, [1], [0], [0]⟩
      [[1]] false = .ok (false, ⟨[[0]], none, [1], [0], [0]⟩) :=
  move_mesh_a_priori_reject (fun _ => [-1]) (fun _ => [1])
    ⟨[[0]], none, [1], [0], [0]⟩ [[1]] (by decide) (by decide)

/-- C2: for an applied move (a priori check passed or pre-validated), the
a posteriori check succeeds iff the per-vertex colliding-cell counts of the
moved mesh equal the recorded cell-incidence counts of the reference topology;
on success `move_mesh` returns `True` in the moved state, and on any mismatch
the move is rolled back to the pre-move coordinate snapshot and `move_mesh`
returns `False`. -/
theorem move_mesh_a_posteriori_rollback (dets : List ℚ → List ℚ)
    (collisions : List (List ℚ) → List ℕ) (st : DHState)
    (t : List (List ℚ)) (validated : Bool)
    (hshape : sameShape t st.coordinates = true)
    (happlied : validated = true ∨
      dh_test_a_priori dets (coordinate_to_dof st.d2v t.flatten) = true) :
    (collisions (addCoords st.coordinates t) = st.occurrences →
      move_mesh dets collisions st t validated =
        .ok (true, { st with old_coordinates := some st.coordinates,
                             coordinates := addCoords st.coordinates t }))
    ∧ (collisions (addCoords st.coordinates t) ≠ st.occurrences →
      move_mesh dets collisions st t validated =
        .ok (false, { st with old_coordinates := none })) := by
  constructor
  · intro hcol
    unfold move_mesh
    rcases happlied with hv | hpass
    · subst hv
      simp [hshape, dh_test_a_posteriori, hcol]
    · cases validated
      · simp [hshape, hpass, dh_test_a_posteriori, hcol]
      · simp [hshape, dh_test_a_posteriori, hcol]
  · intro hcol
    unfold move_mesh
    rcases happlied with hv | hpass
    · subst hv
      simp [hshape, dh_test_a_posteriori, hcol, revert_transformation,
        bind, Except.bind]
    · cases validated
      · simp [hshape, hpass, dh_test_a_posteriori, hcol,
          revert_transformation, bind, Except.bind]
      · simp [hshape, dh_test_a_posteriori, hcol, revert_transformation,
          bind, Except.bind]

/-- Witness for C2 at a concrete one-vertex state whose collision counts
match the reference counts. -/
theorem move_mesh_a_posteriori_rollback_witness :
    move_mesh (fun _ => [1]) (fun _ => [1]) ⟨[[0]], none, [1], [0], [0]⟩
      [[1]] true =
      .ok (true, ⟨[[1]], some [[0]], [1], [0], [0]⟩) := by
  have h := (move_mesh_a_posteriori_rollback (fun _ => [1]) (fun _ => [1])
    ⟨[[0]], none, [1], [0], [0]⟩ [[1]] true (by decide) (Or.inl rfl)).1 rfl
  simpa [addCoords] using h

/-- C3: after any successful `move_mesh`, `revert_transformation` restores
the coordinate array exactly to the pre-move snapshot and invalidates the
snapshot, so a second `revert_transformation` without an intervening move
fails with the fatal attribute error. -/
theorem revert_after_successful_move (dets : List ℚ → List ℚ)
    (collisions : List (List ℚ) → List ℕ) (st : DHState)
    (t : List (List ℚ)) (validated : Bool) (st' : DHState)
    (h : move_mesh dets collisions st t validated = .ok (true, st')) :
    ∃ st'' : DHState, revert_transformation st' = .ok st''
      ∧ st''.coordinates = st.coordinates
      ∧ st''.old_coordinates = none
      ∧ revert_transformation st'' = .error .attributeError := by
  have hst' := move_mesh_ok_true_inv dets collisions st t validated st' h
  subst hst'
  exact ⟨_, rfl, rfl, rfl, rfl⟩

/-- Witness for C3: a concrete successful move, reverted. -/
theorem revert_after_successful_move_witness :
    ∃ st'' : DHState,
      revert_transformation ⟨addCoords [[0]] [[1]], some [[0]], [1], [0], [0]⟩
        = .ok st''
      ∧ st''.coordinates = ([[0]] : List (List ℚ))
      ∧ st''.old_coordinates = none
      ∧ revert_transformation st'' = .error .attributeError :=
  revert_after_successful_move (fun _ => [1]) (fun _ => [1])
    ⟨[[0]], none, [1], [0], [0]⟩ [[1]] true
    ⟨addCoords [[0]] [[1]], some [[0]], [1], [0], [0]⟩ rfl

/-- C10: `move_mesh` raises `CashocsException` for every coordinate-array
transformation whose shape differs from the mesh coordinate array's shape,
irrespective of the a priori/a posteriori oracles and of the
`validated_a_priori` flag (so before any check or mutation); shape-conforming
arrays never raise and proceed to the validity checks, returning a success
boolean. -/
theorem move_mesh_shape_exception (dets : List ℚ → List ℚ)
    (collisions : List (List ℚ) → List ℕ) (st : DHState)
    (t : List (List ℚ)) (validated : Bool) :
    (sameShape t st.coordinates = false →
      move_mesh dets collisions st t validated = .error .cashocsException)
    ∧ (sameShape t st.coordinates = true →
      ∃ b st', move_mesh dets collisions st t validated = .ok (b, st')) := by
  constructor
  · intro hshape
    unfold move_mesh
    simp [hshape]
  · intro hshape
    unfold move_mesh
    simp only [hshape, Bool.true_eq_false, not_false_eq_true, if_neg,
      not_true_eq_false, if_false, ite_not]
    cases validated
    · simp only [Bool.false_eq_true, if_false]
      by_cases hpri : dh_test_a_priori dets (coordinate_to_dof st.d2v t.flatten)
      · simp only [hpri, if_true]
        unfold dh_test_a_posteriori
        split
        · exact ⟨_, _, rfl⟩
        · exact ⟨_, _, rfl⟩
      · simp only [hpri, if_false]
        exact ⟨_, _, rfl⟩
    · simp only [if_true]
      unfold dh_test_a_posteriori
      split
      · exact ⟨_, _, rfl⟩
      · exact ⟨_, _, rfl⟩

/-- Witness for C10: a shape-mismatched transformation raises. -/
theorem move_mesh_shape_exception_witness :
    move_mesh (fun _ => [1]) (fun _ => [1]) ⟨[[0]], none, [1], [0], [0]⟩
      [[1], [2]] false = .error .cashocsException :=
  (move_mesh_shape_exception (fun _ => [1]) (fun _ => [1])
    ⟨[[0]], none, [1], [0], [0]⟩ [[1], [2]] false).1 (by decide)

/-- C5: `convergence_test` reports convergence (and then sets the `converged`
flag) exactly when `gradient_norm <= atol + rtol * gradient_norm_initial`,
with the initial norm captured at iteration 0; and on the gradient-norm
sequence `[1.0, 0.5, 0.1, 0.001]` with `rtol = 1e-2`, `atol = 0`, convergence
triggers first at index 3 and at no earlier index. -/
theorem convergence_test_characterization :
    (∀ (rtol atol gradient_norm : ℚ) (st : ConvState),
      ((convergence_test rtol atol gradient_norm st).1 = true ↔
        gradient_norm ≤ atol + rtol *
          (if st.iteration = 0 then gradient_norm
           else st.gradient_norm_initial))
      ∧ (convergence_test rtol atol gradient_norm st).2.gradient_norm_initial
          = (if st.iteration = 0 then gradient_norm
             else st.gradient_norm_initial)
      ∧ (convergence_test rtol atol gradient_norm st).2.converged
          = ((convergence_test rtol atol gradient_norm st).1 || st.converged))
    ∧ convergence_run (1 / 100) 0 [1, 1 / 2, 1 / 10, 1 / 1000] ⟨0, 1, 1, false⟩
        = [false, false, false, true] := by
  constructor
  · intro rtol atol gradient_norm st
    refine ⟨?_, ?_, ?_⟩ <;>
      · simp only [convergence_test]
        split <;> split <;> simp_all
  · simp only [convergence_run, convergence_test]
    norm_num

/-- Witness for C5, instantiated at iteration 0 of the scenario. -/
theorem convergence_test_characterization_witness :
    ((convergence_test (1 / 100) 0 1 ⟨0, 1, 1, false⟩).1 = true ↔
      (1 : ℚ) ≤ 0 + (1 / 100) *
        (if (0 : ℕ) = 0 then (1 : ℚ) else (1 : ℚ)))
    ∧ (convergence_test (1 / 100) 0 1 ⟨0, 1, 1, false⟩).2.gradient_norm_initial
        = (if (0 : ℕ) = 0 then (1 : ℚ) else (1 : ℚ))
    ∧ (convergence_test (1 / 100) 0 1 ⟨0, 1, 1, false⟩).2.converged
        = ((convergence_test (1 / 100) 0 1 ⟨0, 1, 1, false⟩).1 || false) :=
  convergence_test_characterization.1 (1 / 100) 0 1 ⟨0, 1, 1, false⟩

/-- C6: the shape mesh handler's a priori check rejects a transformation
exactly when `min_det < 1/volume_change` or `max_det > volume_change` (and
accepts exactly under the ratio bounds), whereas the generic deformation
handler's a priori check rejects exactly when `min_det <= 0`. -/
theorem a_priori_check_variants (volume_change : ℚ) (dets : List ℚ)
    (hne : dets ≠ []) :
    (mh_test_a_priori volume_change dets = false ↔
      npMin dets < 1 / volume_change ∨ volume_change < npMax dets)
    ∧ (mh_test_a_priori volume_change dets = true ↔
      1 / volume_change ≤ npMin dets ∧ npMax dets ≤ volume_change)
    ∧ (∀ (dets_fun : List ℚ → List ℚ) (dof_t : List ℚ),
        dh_test_a_priori dets_fun dof_t = false ↔
          npMin (dets_fun dof_t) ≤ 0) := by
  refine ⟨?_, ?_, ?_⟩
  · simp only [mh_test_a_priori, Bool.and_eq_false_iff,
      decide_eq_false_iff_not, not_le]
  · simp [mh_test_a_priori]
  · intro dets_fun dof_t
    simp [dh_test_a_priori, not_lt]

/-- Witness for C6 with `volume_change = 2` and determinant values `[1]`. -/
theorem a_priori_check_variants_witness :
    (mh_test_a_priori 2 [1] = false ↔
      npMin [1] < 1 / 2 ∨ (2 : ℚ) < npMax [1])
    ∧ (mh_test_a_priori 2 [1] = true ↔
      1 / 2 ≤ npMin [1] ∧ npMax [1] ≤ 2)
    ∧ (∀ (dets_fun : List ℚ → List ℚ) (dof_t : List ℚ),
        dh_test_a_priori dets_fun dof_t = false ↔
          npMin (dets_fun dof_t) ≤ 0) :=
  a_priori_check_variants 2 [1] (by decide)

/-- C7: the nonconvergence reasons are assigned by checks running in the
order max-iterations / line-search / remesh-quality / remesh-iterations (a
later check overwrites an earlier reason); when the iteration counter has
reached `maximum_iterations` and no other failure flag is set,
`nonconvergence` returns `True` with reason `-1`, and with
`soft_exit = false` `post_processing` raises `NotConvergedError` only after
the per-iteration output and the summary have been written. -/
theorem nonconvergence_max_iterations :
    (∀ st : AlgState,
      (nonconvergence st).2.converged_reason =
        (if st.remeshing_its then -4
         else if st.requires_remeshing then -3
         else if st.line_search_broken then -2
         else if st.maximum_iterations ≤ st.iteration then -1
         else st.converged_reason))
    ∧ (∀ st : AlgState,
        st.maximum_iterations ≤ st.iteration →
        st.line_search_broken = false →
        st.requires_remeshing = false →
        st.remeshing_its = false →
        st.converged = false →
        st.soft_exit = false →
        (nonconvergence st).1 = true
        ∧ (nonconvergence st).2.converged_reason = -1
        ∧ post_processing (nonconvergence st).2 =
            ([.output, .outputSummary], .raisedNotConverged,
              (nonconvergence st).2)) := by
  constructor
  · intro st
    simp only [nonconvergence]
  · intro st hiter hls hrm hits hconv hsoft
    simp [nonconvergence, post_processing, hiter, hls, hrm, hits, hconv,
      hsoft]

/-- Witness for C7 at `iteration = maximum_iterations = 100` with all other
flags clear. -/
theorem nonconvergence_max_iterations_witness :
    (nonconvergence ⟨100, 100, false, false, false, false, 0, false, false⟩).1
        = true
    ∧ (nonconvergence
        ⟨100, 100, false, false, false, false, 0, false, false⟩).2.converged_reason
        = -1
    ∧ post_processing (nonconvergence
        ⟨100, 100, false, false, false, false, 0, false, false⟩).2 =
        ([.output, .outputSummary], .raisedNotConverged,
          (nonconvergence
            ⟨100, 100, false, false, false, false, 0, false, false⟩).2) :=
  nonconvergence_max_iterations.2
    ⟨100, 100, false, false, false, false, 0, false, false⟩
    (by decide) rfl rfl rfl rfl rfl

/-- Helper: over the reals, the square-root-free curvature rejection test
agrees with the source's expression `cc / sqrt(ss * yy) <= 1e-14` whenever
`ss * yy` is positive. -/
lemma curvature_small_iff_ratio (cc ss yy : ℚ) (h : 0 < ss * yy) :
    curvature_small cc ss yy = true ↔
      (cc : ℝ) / Real.sqrt ((ss : ℝ) * (yy : ℝ)) ≤ 1 / 10 ^ 14 := by
  have hP : (0 : ℝ) < (ss : ℝ) * (yy : ℝ) := by exact_mod_cast h
  have hs : 0 < Real.sqrt ((ss : ℝ) * (yy : ℝ)) := Real.sqrt_pos.mpr hP
  have hsq : Real.sqrt ((ss : ℝ) * (yy : ℝ)) ^ 2 = (ss : ℝ) * (yy : ℝ) :=
    Real.sq_sqrt hP.le
  rw [div_le_iff₀ hs]
  unfold curvature_small
  simp only [Bool.or_eq_true, decide_eq_true_eq]
  constructor
  · rintro (hle | hsqc)
    · have hcc : (cc : ℝ) ≤ 0 := by exact_mod_cast hle
      nlinarith [hs]
    · have hc : (cc : ℝ) ^ 2 * 10 ^ 28 ≤ (ss : ℝ) * (yy : ℝ) := by
        exact_mod_cast hsqc
      by_cases hcc : (cc : ℝ) ≤ 0
      · nlinarith [hs]
      · push_neg at hcc
        have hA : ((cc : ℝ) * 10 ^ 14) ^ 2 ≤
            Real.sqrt ((ss : ℝ) * (yy : ℝ)) ^ 2 := by
          rw [hsq]; nlinarith [hc]
        have h2 : (cc : ℝ) * 10 ^ 14 ≤ Real.sqrt ((ss : ℝ) * (yy : ℝ)) :=
          le_of_pow_le_pow_left (by norm_num) hs.le hA
        linarith
  · intro hle
    by_cases hcc : cc ≤ 0
    · exact Or.inl hcc
    · right
      push_neg at hcc
      have hccR : (0 : ℝ) < (cc : ℝ) := by exact_mod_cast hcc
      have h2 : (cc : ℝ) ^ 2 ≤
          ((1 / 10 ^ 14) * Real.sqrt ((ss : ℝ) * (yy : ℝ))) ^ 2 := by
        refine pow_le_pow_left hccR.le ?_ 2
        linarith
      have h3 : ((1 / 10 ^ 14 : ℝ) * Real.sqrt ((ss : ℝ) * (yy : ℝ))) ^ 2 =
          (1 / 10 ^ 28) * ((ss : ℝ) * (yy : ℝ)) := by
        rw [mul_pow, hsq]; norm_num
      have h4 : (cc : ℝ) ^ 2 * 10 ^ 28 ≤ (ss : ℝ) * (yy : ℝ) := by
        nlinarith [h2, h3]
      exact_mod_cast h4

/-- Helper: a single `update_hessian_approximation` call preserves the
equal-length-and-capacity invariant of the three histories. -/
lemma update_preserves_invariant {V : Type} (sp : V → V → ℚ)
    (restrict : V → V) (bfgs_memory_size : ℕ) (hmem : 0 < bfgs_memory_size)
    (y_in s_in : V) (st : LBFGSState V)
    (h1 : st.history_s.length = st.history_y.length)
    (h2 : st.history_y.length = st.history_rho.length)
    (h3 : st.history_s.length ≤ bfgs_memory_size) :
    (update_hessian_approximation sp restrict bfgs_memory_size y_in s_in
        st).history_s.length =
      (update_hessian_approximation sp restrict bfgs_memory_size y_in s_in
        st).history_y.length
    ∧ (update_hessian_approximation sp restrict bfgs_memory_size y_in s_in
        st).history_y.length =
      (update_hessian_approximation sp restrict bfgs_memory_size y_in s_in
        st).history_rho.length
    ∧ (update_hessian_approximation sp restrict bfgs_memory_size y_in s_in
        st).history_s.length ≤ bfgs_memory_size := by
  by_cases hcurv : curvature_small (sp (restrict y_in) (restrict s_in))
      (sp (restrict s_in) (restrict s_in))
      (sp (restrict y_in) (restrict y_in)) = true
  · simp [update_hessian_approximation, if_pos hmem, hcurv, hmem]
  · rw [Bool.not_eq_true] at hcurv
    simp only [update_hessian_approximation, if_pos hmem, hcurv,
      Bool.false_eq_true, if_false]
    split
    · next hlen =>
      refine ⟨?_, ?_, ?_⟩
      · simp only [List.length_dropLast, List.length_cons, h1]
      · simp only [List.length_dropLast, List.length_cons, h2]
      · simp only [List.length_dropLast, List.length_cons] at hlen ⊢
        omega
    · next hlen =>
      refine ⟨?_, ?_, ?_⟩
      · simp only [List.length_cons, h1]
      · simp only [List.length_cons, h2]
      · exact Nat.le_of_not_lt hlen

/-- Helper: the invariant holds after any run of updates from the initial
empty histories. -/
lemma lbfgs_run_invariant {V : Type} (sp : V → V → ℚ) (restrict : V → V)
    (bfgs_memory_size : ℕ) (hmem : 0 < bfgs_memory_size)
    (inputs : List (V × V)) (st : LBFGSState V)
    (h1 : st.history_s.length = st.history_y.length)
    (h2 : st.history_y.length = st.history_rho.length)
    (h3 : st.history_s.length ≤ bfgs_memory_size) :
    (lbfgs_run sp restrict bfgs_memory_size inputs st).history_s.length =
      (lbfgs_run sp restrict bfgs_memory_size inputs st).history_y.length
    ∧ (lbfgs_run sp restrict bfgs_memory_size inputs st).history_y.length =
      (lbfgs_run sp restrict bfgs_memory_size inputs st).history_rho.length
    ∧ (lbfgs_run sp restrict bfgs_memory_size inputs st).history_s.length ≤
        bfgs_memory_size := by
  induction inputs generalizing st with
  | nil => exact ⟨h1, h2, h3⟩
  | cons p rest ih =>
    obtain ⟨g1, g2, g3⟩ := update_preserves_invariant sp restrict
      bfgs_memory_size hmem p.1 p.2 st h1 h2 h3
    exact ih _ g1 g2 g3

/-- C4: for every sequence of `update_hessian_approximation` calls with
`bfgs_memory_size > 0`, the three L-BFGS histories keep equal lengths bounded
by the memory size; and in any call whose curvature-condition ratio
`(y,s)/sqrt((s,s)*(y,y))` is at most `1e-14`, all three histories are cleared
in that same call and `has_curvature_info` is set to `False`. -/
theorem lbfgs_history_invariant {V : Type} (sp : V → V → ℚ)
    (restrict : V → V) (bfgs_memory_size : ℕ) (hmem : 0 < bfgs_memory_size)
    (inputs : List (V × V)) :
    ((lbfgs_run sp restrict bfgs_memory_size inputs
        (lbfgsInit V)).history_s.length =
      (lbfgs_run sp restrict bfgs_memory_size inputs
        (lbfgsInit V)).history_y.length
    ∧ (lbfgs_run sp restrict bfgs_memory_size inputs
        (lbfgsInit V)).history_y.length =
      (lbfgs_run sp restrict bfgs_memory_size inputs
        (lbfgsInit V)).history_rho.length
    ∧ (lbfgs_run sp restrict bfgs_memory_size inputs
        (lbfgsInit V)).history_s.length ≤ bfgs_memory_size)
    ∧ (∀ (st : LBFGSState V) (y_in s_in : V),
        0 < sp (restrict s_in) (restrict s_in) *
              sp (restrict y_in) (restrict y_in) →
        ((sp (restrict y_in) (restrict s_in) : ℚ) : ℝ) /
            Real.sqrt (((sp (restrict s_in) (restrict s_in) : ℚ) : ℝ) *
              ((sp (restrict y_in) (restrict y_in) : ℚ) : ℝ)) ≤ 1 / 10 ^ 14 →
        update_hessian_approximation sp restrict bfgs_memory_size y_in s_in st
          = lbfgsInit V) := by
  constructor
  · exact lbfgs_run_invariant sp restrict bfgs_memory_size hmem inputs
      (lbfgsInit V) rfl rfl (by simp [lbfgsInit])
  · intro st y_in s_in hpos hratio
    have hcurv : curvature_small (sp (restrict y_in) (restrict s_in))
        (sp (restrict s_in) (restrict s_in))
        (sp (restrict y_in) (restrict y_in)) = true :=
      (curvature_small_iff_ratio _ _ _ hpos).mpr hratio
    simp [update_hessian_approximation, if_pos hmem, hcurv, hmem, lbfgsInit]

/-- Witness for C4 with a scalar control space, unit memory and the empty
update sequence. -/
theorem lbfgs_history_invariant_witness :
    (lbfgs_run (fun a b : ℚ => a * b) id 1 []
        (lbfgsInit ℚ)).history_s.length =
      (lbfgs_run (fun a b : ℚ => a * b) id 1 []
        (lbfgsInit ℚ)).history_y.length
    ∧ (lbfgs_run (fun a b : ℚ => a * b) id 1 []
        (lbfgsInit ℚ)).history_y.length =
      (lbfgs_run (fun a b : ℚ => a * b) id 1 []
        (lbfgsInit ℚ)).history_rho.length
    ∧ (lbfgs_run (fun a b : ℚ => a * b) id 1 []
        (lbfgsInit ℚ)).history_s.length ≤ 1 :=
  (lbfgs_history_invariant (fun a b : ℚ => a * b) id 1 (by decide) []).1

/-- Helper: anything `projectLoop` returns passed its feasibility check and
was reached in fewer correction steps than the fuel bound. -/
lemma projectLoop_some_spec (satisfies : List ℚ → Bool)
    (correct : List ℚ → List ℚ) :
    ∀ (fuel : ℕ) (y r : List ℚ),
      projectLoop satisfies correct fuel y = some r →
        satisfies r = true ∧ ∃ k, k < fuel ∧ r = correct^[k] y := by
  intro fuel
  induction fuel with
  | zero => intro y r h; simp [projectLoop] at h
  | succ n ih =>
    intro y r h
    unfold projectLoop at h
    by_cases hs : satisfies y = true
    · rw [if_pos hs] at h
      obtain rfl : y = r := by simpa using h
      exact ⟨hs, 0, Nat.succ_pos n, rfl⟩
    · rw [if_neg hs] at h
      obtain ⟨hsat, k, hk, hr⟩ := ih (correct y) r h
      refine ⟨hsat, k + 1, by omega, ?_⟩
      rw [Function.iterate_succ_apply, hr]

/-- Helper: a true `allOnActive` check means every working-set index is
marked in the mask. -/
lemma allOnActive_spec (mask active_idx : List Bool)
    (h : allOnActive mask active_idx = true) (i : ℕ)
    (him : i < mask.length) (hia : i < active_idx.length)
    (ha : active_idx.getD i false = true) : mask.getD i false = true := by
  have hz : i < (mask.zip active_idx).length := by
    rw [List.length_zip]
    exact lt_min him hia
  have hmem : (mask.zip active_idx)[i] ∈ mask.zip active_idx :=
    List.getElem_mem hz
  have hp := (List.all_eq_true.mp h) _ hmem
  rw [List.getElem_zip] at hp
  rw [List.getD_eq_getElem _ _ hia] at ha
  rw [List.getD_eq_getElem _ _ him]
  simpa [ha] using hp

/-- C8: `project_to_working_set` performs at most 10 correction iterations:
every returned value is reached within 10 corrections of the trial step and
satisfies every constraint of the working set `active_idx` to within the
configured tolerance; when the bound is exhausted it returns `None`, in which
case the `compute_step` search loop halves the stepsize and retries. -/
theorem project_to_working_set_spec (evalc : List ℚ → List ℚ) (tol : ℚ)
    (v2d : List ℕ) (active_idx : List Bool) (correct : List ℚ → List ℚ)
    (coords_dof search_direction_dof : List ℚ) (stepsize : ℚ) :
    (∀ y, project_to_working_set evalc tol v2d active_idx correct
        coords_dof search_direction_dof stepsize = some y →
      (∃ k, k < 10 ∧ y = correct^[k]
        (stepCandidate coords_dof search_direction_dof stepsize))
      ∧ ∀ i, i < (compute_active_set evalc tol (reindex v2d y)).length →
          i < active_idx.length →
          active_idx.getD i false = true →
          (compute_active_set evalc tol (reindex v2d y)).getD i false = true)
    ∧ (project_to_working_set evalc tol v2d active_idx correct
        coords_dof search_direction_dof stepsize = none →
      ∀ fuel : ℕ,
        compute_step_search
          (project_to_working_set evalc tol v2d active_idx correct
            coords_dof search_direction_dof) (fuel + 1) stepsize =
        compute_step_search
          (project_to_working_set evalc tol v2d active_idx correct
            coords_dof search_direction_dof) fuel (stepsize / 2)) := by
  constructor
  · intro y hy
    obtain ⟨hsat, k, hk, hr⟩ := projectLoop_some_spec _ _ 10 _ y hy
    refine ⟨⟨k, hk, hr⟩, ?_⟩
    intro i him hia ha
    exact allOnActive_spec _ _ hsat i him hia ha
  · intro hnone fuel
    simp only [compute_step_search, hnone]

/-- Witness for C8: with a single active constraint already satisfied at the
trial point, the projection returns it unchanged. -/
theorem project_to_working_set_spec_witness :
    ((∃ k, k < 10 ∧ ([0] : List ℚ) = id^[k]
        (stepCandidate [0] [0] 1))
      ∧ ∀ i, i < (compute_active_set (fun c => c) 0 (reindex [0] [0])).length →
          i < [true].length →
          [true].getD i false = true →
          (compute_active_set (fun c => c) 0 (reindex [0] [0])).getD i false
            = true) :=
  (project_to_working_set_spec (fun c => c) 0 [0] [true] id [0] [0] 1).1
    [0] (by norm_num [project_to_working_set, projectLoop,
      satisfies_working_set, stepCandidate, compute_active_set, reindex,
      allOnActive])

/-- Helper: reindexing twice along mutually inverse index maps is the
identity on arrays of the matching length. -/
lemma reindex_reindex_of_inverse (n : ℕ) (p q : List ℕ)
    (hp : p.length = n) (hq : q.length = n)
    (hinv : ∀ i, i < n → q.getD i 0 < n ∧ p.getD (q.getD i 0) 0 = i)
    (c : List ℚ) (hc : c.length = n) :
    reindex q (reindex p c) = c := by
  apply List.ext_getElem
  · simp [reindex, hq, hc]
  · intro i h1 h2
    have hi : i < n := by
      rw [hc] at h2
      exact h2
    obtain ⟨hqlt, hpq⟩ := hinv i hi
    have hiq : i < q.length := by rw [hq]; exact hi
    simp only [reindex, List.getElem_map]
    have e1 : q[i] = q.getD i 0 := (List.getD_eq_getElem q 0 hiq).symm
    rw [e1]
    have hlt2 : q.getD i 0 < (List.map (fun k => c.getD k 0) p).length := by
      rw [List.length_map, hp]
      exact hqlt
    rw [List.getD_eq_getElem _ 0 hlt2, List.getElem_map]
    have hpl : q.getD i 0 < p.length := by rw [hp]; exact hqlt
    have e2 : p[q.getD i 0] = p.getD (q.getD i 0) 0 :=
      (List.getD_eq_getElem p 0 hpl).symm
    rw [e2, hpq]
    exact List.getD_eq_getElem c 0 h2

/-- C9: when the vertex-to-dof and dof-to-vertex maps are mutually inverse
permutations of `{0, ..., n-1}` (as the finite-element library guarantees for
the maps computed once per mesh), `dof_to_coordinate` and `coordinate_to_dof`
are mutually inverse, so both the coordinate array and the dof vector
round-trip without loss. -/
theorem vertex_dof_maps_roundtrip (n : ℕ) (d2v v2d : List ℕ)
    (hd2v : d2v.length = n) (hv2d : v2d.length = n)
    (hvd : ∀ i, i < n → v2d.getD i 0 < n ∧ d2v.getD (v2d.getD i 0) 0 = i)
    (hdv : ∀ k, k < n → d2v.getD k 0 < n ∧ v2d.getD (d2v.getD k 0) 0 = k) :
    (∀ c : List ℚ, c.length = n →
      dof_to_coordinate v2d (coordinate_to_dof d2v c) = c)
    ∧ (∀ v : List ℚ, v.length = n →
      coordinate_to_dof d2v (dof_to_coordinate v2d v) = v) := by
  constructor
  · intro c hc
    exact reindex_reindex_of_inverse n d2v v2d hd2v hv2d hvd c hc
  · intro v hv
    exact reindex_reindex_of_inverse n v2d d2v hv2d hd2v hdv v hv

/-- Witness for C9 with the transposition maps of a two-vertex mesh. -/
theorem vertex_dof_maps_roundtrip_witness :
    dof_to_coordinate [1, 0] (coordinate_to_dof [1, 0] [3, 4]) = [3, 4] :=
  (vertex_dof_maps_roundtrip 2 [1, 0] [1, 0] rfl rfl (by decide)
    (by decide)).1 [3, 4] rfl

end Cashocs
